import Mathlib

/-!
Verification of the computational core of the pumping-test analysis notebook
(`PumpingTest_Analysis.ipynb`): the Thiem evaluator, the drawdown transform,
the CSV loading phase, the radius sweep and the printed unit conversions.

Numeric values are modelled as real numbers.  The single place where a numpy
float can become NaN (the square root of a negative argument in the Thiem
evaluator) is modelled separately by `TheimNp`, which returns `Option ℝ` with
`none` standing for numpy's silent not-a-number result.
-/

namespace PumpingTest

open Real

/-- The Thiem evaluator, transcribed from the notebook cell
`def Theim(r,r1,b1,Q,K): LHS=Q/np.pi/K*np.log(r/r1); b=np.sqrt(LHS+b1**2); return b`,
with numpy floats idealized as real numbers (`Real.sqrt`, `Real.log`). -/
noncomputable def Theim (r r1 b1 Q K : ℝ) : ℝ :=
  let LHS := Q / Real.pi / K * Real.log (r / r1)
  Real.sqrt (LHS + b1 ^ 2)

/-- numpy's `np.sqrt` on a scalar: a negative argument yields NaN, modelled as
`none`; a non-negative argument yields the real square root. -/
noncomputable def npSqrt (x : ℝ) : Option ℝ :=
  if x < 0 then none else some (Real.sqrt x)

/-- The Thiem evaluator with numpy's NaN behaviour made explicit: identical to
`Theim` except that the square root of a negative argument is the invalid
value `none` (numpy's NaN), which is returned, not raised. -/
noncomputable def TheimNp (r r1 b1 Q K : ℝ) : Option ℝ :=
  let LHS := Q / Real.pi / K * Real.log (r / r1)
  npSqrt (LHS + b1 ^ 2)

/-- The closed-form reference definition of the spec, written with the spec's
grouping: `thickness(r, r1, b1, Q, K) = sqrt( Q/(π·K)·ln(r/r1) + b1² )`. -/
noncomputable def thicknessSpec (r r1 b1 Q K : ℝ) : ℝ :=
  Real.sqrt (Q / (Real.pi * K) * Real.log (r / r1) + b1 ^ 2)

/-- C1: for every r > 0, r1 > 0, b1, Q > 0, K > 0, the Thiem evaluator
returns `sqrt( Q/(π·K)·ln(r/r1) + b1² )`, i.e. it coincides with the
closed-form reference definition of the spec (the source computes
`Q/np.pi/K`, the spec writes `Q/(π·K)`; the two groupings agree). -/
theorem Theim_eq_thicknessSpec (r r1 b1 Q K : ℝ)
    (hr : 0 < r) (hr1 : 0 < r1) (hQ : 0 < Q) (hK : 0 < K) :
    Theim r r1 b1 Q K = thicknessSpec r r1 b1 Q K := by
  show Real.sqrt (Q / Real.pi / K * Real.log (r / r1) + b1 ^ 2) =
    Real.sqrt (Q / (Real.pi * K) * Real.log (r / r1) + b1 ^ 2)
  rw [div_div]

/-- Witness for C1 at r = 1, r1 = 1, b1 = 0, Q = 1, K = 1. -/
theorem Theim_eq_thicknessSpec_witness :
    (0:ℝ) < 1 ∧ Theim 1 1 0 1 1 = thicknessSpec 1 1 0 1 1 :=
  ⟨by norm_num,
   Theim_eq_thicknessSpec 1 1 0 1 1 (by norm_num) (by norm_num) (by norm_num)
     (by norm_num)⟩

/-- C3: at the reference radius the Thiem evaluator returns the reference
thickness exactly: for r1 > 0, b1 ≥ 0, Q > 0, K > 0,
`Theim r1 r1 b1 Q K = b1` (the log term vanishes at r = r1). -/
theorem Theim_at_reference_radius (r1 b1 Q K : ℝ)
    (hr1 : 0 < r1) (hb1 : 0 ≤ b1) (hQ : 0 < Q) (hK : 0 < K) :
    Theim r1 r1 b1 Q K = b1 := by
  show Real.sqrt (Q / Real.pi / K * Real.log (r1 / r1) + b1 ^ 2) = b1
  rw [div_self (ne_of_gt hr1), Real.log_one, mul_zero, zero_add,
    Real.sqrt_sq hb1]

/-- Witness for C3 at r1 = 2, b1 = 3, Q = 1, K = 1. -/
theorem Theim_at_reference_radius_witness :
    ((0:ℝ) < 2 ∧ (0:ℝ) ≤ 3) ∧ Theim 2 2 3 1 1 = 3 :=
  ⟨⟨by norm_num, by norm_num⟩,
   Theim_at_reference_radius 2 3 1 1 (by norm_num) (by norm_num) (by norm_num)
     (by norm_num)⟩

/-- C5: scaling both Q and K by the same positive factor c leaves the Thiem
evaluation unchanged: the result depends on Q and K only through Q/K. -/
theorem Theim_QK_scale_invariant (c r r1 b1 Q K : ℝ)
    (hc : 0 < c) (hr : 0 < r) (hr1 : 0 < r1) (hQ : 0 < Q) (hK : 0 < K) :
    Theim r r1 b1 (c * Q) (c * K) = Theim r r1 b1 Q K := by
  show Real.sqrt (c * Q / Real.pi / (c * K) * Real.log (r / r1) + b1 ^ 2) =
    Real.sqrt (Q / Real.pi / K * Real.log (r / r1) + b1 ^ 2)
  have hcoef : c * Q / Real.pi / (c * K) = Q / Real.pi / K := by
    have hc0 : c ≠ 0 := ne_of_gt hc
    have hK0 : K ≠ 0 := ne_of_gt hK
    have hpi : Real.pi ≠ 0 := Real.pi_ne_zero
    field_simp
    ring
  rw [hcoef]

/-- Witness for C5 at c = 2, r = 1, r1 = 1, b1 = 0, Q = 1, K = 1. -/
theorem Theim_QK_scale_invariant_witness :
    (0:ℝ) < 2 ∧ Theim 1 1 0 (2 * 1) (2 * 1) = Theim 1 1 0 1 1 :=
  ⟨by norm_num,
   Theim_QK_scale_invariant 2 1 1 0 1 1 (by norm_num) (by norm_num)
     (by norm_num) (by norm_num) (by norm_num)⟩

/-- C2: when 0 < r < r1 and the magnitude of the log term exceeds b1², the
argument under the square root is negative and the evaluator returns numpy's
invalid value (NaN, modelled as `none`): the total function `TheimNp` returns
it to the caller rather than raising. -/
theorem TheimNp_negative_arg_invalid (r r1 b1 Q K : ℝ)
    (hr : 0 < r) (hrr1 : r < r1) (hQ : 0 < Q) (hK : 0 < K)
    (habs : b1 ^ 2 < |Q / (Real.pi * K) * Real.log (r / r1)|) :
    TheimNp r r1 b1 Q K = none := by
  have hr1 : 0 < r1 := hr.trans hrr1
  have hx : r / r1 < 1 := (div_lt_one hr1).mpr hrr1
  have hxpos : 0 < r / r1 := div_pos hr hr1
  have hlog : Real.log (r / r1) < 0 := Real.log_neg hxpos hx
  have hc : 0 < Q / Real.pi / K := by positivity
  have hL : Q / Real.pi / K * Real.log (r / r1) < 0 :=
    mul_neg_of_pos_of_neg hc hlog
  rw [div_div] at hc hL
  rw [abs_of_neg hL] at habs
  show npSqrt (Q / Real.pi / K * Real.log (r / r1) + b1 ^ 2) = none
  rw [div_div]
  unfold npSqrt
  rw [if_pos (by linarith)]

/-- Witness for C2 at r = 1, r1 = 2, b1 = 0, Q = 1, K = 1. -/
theorem TheimNp_negative_arg_invalid_witness :
    ((0:ℝ) < 1 ∧ (1:ℝ) < 2 ∧
      (0:ℝ) ^ 2 < |1 / (Real.pi * 1) * Real.log (1 / 2)|) ∧
    TheimNp 1 2 0 1 1 = none := by
  have hlog : Real.log ((1:ℝ) / 2) < 0 := Real.log_neg (by norm_num) (by norm_num)
  have hL : 1 / (Real.pi * 1) * Real.log ((1:ℝ) / 2) < 0 :=
    mul_neg_of_pos_of_neg (by positivity) hlog
  have habs : (0:ℝ) ^ 2 < |1 / (Real.pi * 1) * Real.log ((1:ℝ) / 2)| := by
    rw [abs_of_neg hL]
    nlinarith
  exact ⟨⟨by norm_num, by norm_num, habs⟩,
    TheimNp_negative_arg_invalid 1 2 0 1 1 (by norm_num) (by norm_num)
      (by norm_num) (by norm_num) habs⟩

/-- C4: for K > 0, Q > 0 and radii r₂ > r₁ > 0 the computed saturated
thickness is non-decreasing in the evaluation radius (the reference radius
rref is positive, so both evaluations are defined). -/
theorem Theim_monotone_in_radius (ra rb rref b1 Q K : ℝ)
    (hK : 0 < K) (hQ : 0 < Q) (hra : 0 < ra) (hab : ra < rb)
    (href : 0 < rref) :
    Theim ra rref b1 Q K ≤ Theim rb rref b1 Q K := by
  show Real.sqrt (Q / Real.pi / K * Real.log (ra / rref) + b1 ^ 2) ≤
    Real.sqrt (Q / Real.pi / K * Real.log (rb / rref) + b1 ^ 2)
  apply Real.sqrt_le_sqrt
  have hc : 0 ≤ Q / Real.pi / K := by positivity
  have hlog : Real.log (ra / rref) ≤ Real.log (rb / rref) :=
    le_of_lt (Real.log_lt_log (div_pos hra href)
      (div_lt_div_of_pos_right hab href))
  have := mul_le_mul_of_nonneg_left hlog hc
  linarith

/-- Witness for C4 at ra = 1, rb = 2, rref = 1, b1 = 0, Q = 1, K = 1. -/
theorem Theim_monotone_in_radius_witness :
    ((0:ℝ) < 1 ∧ (1:ℝ) < 2) ∧ Theim 1 1 0 1 1 ≤ Theim 2 1 0 1 1 :=
  ⟨⟨by norm_num, by norm_num⟩,
   Theim_monotone_in_radius 1 2 1 0 1 1 (by norm_num) (by norm_num)
     (by norm_num) (by norm_num) (by norm_num)⟩

/-- Lower bound on the log term of the worked example:
`0.01/π/0.001 · ln 2 = (10/π)·ln 2 > 2.2063`. -/
theorem example_logterm_lb : (2.2063:ℝ) < 0.01 / Real.pi / 0.001 * Real.log 2 := by
  have hπpos : (0:ℝ) < Real.pi := Real.pi_pos
  have hcoef : (0.01:ℝ) / Real.pi / 0.001 = 10 / Real.pi := by
    rw [div_div]
    rw [div_eq_div_iff (by positivity) (ne_of_gt hπpos)]
    ring
  rw [hcoef, div_mul_eq_mul_div, lt_div_iff₀ hπpos]
  nlinarith [Real.pi_lt_d6, Real.log_two_gt_d9]

/-- Upper bound on the log term of the worked example:
`0.01/π/0.001 · ln 2 = (10/π)·ln 2 < 2.2064`. -/
theorem example_logterm_ub : 0.01 / Real.pi / 0.001 * Real.log 2 < (2.2064:ℝ) := by
  have hπpos : (0:ℝ) < Real.pi := Real.pi_pos
  have hcoef : (0.01:ℝ) / Real.pi / 0.001 = 10 / Real.pi := by
    rw [div_div]
    rw [div_eq_div_iff (by positivity) (ne_of_gt hπpos)]
    ring
  rw [hcoef, div_mul_eq_mul_div, div_lt_iff₀ hπpos]
  nlinarith [Real.pi_gt_d6, Real.log_two_lt_d9]

/-- Two-sided bound on the Thiem value of the worked example at r = 10. -/
theorem Theim_example_bounds :
    (9.61535:ℝ) < Theim 10 5 9.5 0.01 0.001 ∧
    Theim 10 5 9.5 0.01 0.001 < (9.61545:ℝ) := by
  have h2 : (10:ℝ) / 5 = 2 := by norm_num
  have hval : Theim 10 5 9.5 0.01 0.001 =
      Real.sqrt (0.01 / Real.pi / 0.001 * Real.log 2 + 9.5 ^ 2) := by
    show Real.sqrt (0.01 / Real.pi / 0.001 * Real.log (10 / 5) + 9.5 ^ 2) =
      Real.sqrt (0.01 / Real.pi / 0.001 * Real.log 2 + 9.5 ^ 2)
    rw [h2]
  have hlb := example_logterm_lb
  have hub := example_logterm_ub
  constructor
  · rw [hval, Real.lt_sqrt (by norm_num)]
    nlinarith
  · rw [hval, Real.sqrt_lt' (by norm_num)]
    nlinarith

/-- C7 counterexample: at r = 10, r1 = 5, b1 = 9.5, Q = 0.01, K = 0.001
the Thiem evaluation is NOT 9.6199 to 4 decimal places: it differs from
9.6199 by more than 0.004 (its value is ≈ 9.61542). -/
theorem Theim_example_not_9_6199 :
    (0.004:ℝ) < |Theim 10 5 9.5 0.01 0.001 - 9.6199| := by
  have h := Theim_example_bounds
  have hneg : Theim 10 5 9.5 0.01 0.001 - 9.6199 < 0 := by linarith [h.2]
  rw [abs_of_neg hneg]
  linarith [h.2]

/-- C7 (amended): with r1 = 5, b1 = 9.5, Q = 0.01, K = 0.001 the Thiem
evaluation at r = 5 is exactly 9.5, and at r = 10 it is
`sqrt(0.01/(π·0.001)·ln 2 + 9.5²) ≈ 9.6154` to 4 decimal places
(the spec's figure 9.6199 is an arithmetic slip). -/
theorem Theim_example_values :
    Theim 5 5 9.5 0.01 0.001 = 9.5 ∧
    |Theim 10 5 9.5 0.01 0.001 - 9.6154| < (0.00005:ℝ) := by
  constructor
  · show Real.sqrt (0.01 / Real.pi / 0.001 * Real.log (5 / 5) + 9.5 ^ 2) = 9.5
    have h55 : (5:ℝ) / 5 = 1 := by norm_num
    rw [h55, Real.log_one, mul_zero, zero_add,
      Real.sqrt_sq (by norm_num : (0:ℝ) ≤ 9.5)]
  · have h := Theim_example_bounds
    rw [abs_lt]
    constructor <;> linarith [h.1, h.2]

/-- The drawdown transform of the notebook, `h = h - h[0]` elementwise
(numpy broadcasting of the scalar `h[0]` over the array `h`).  A series is a
list of head readings; `headI` is the first element (the notebook indexes
`h[0]`, which requires a non-empty series). -/
def drawdown (h : List ℝ) : List ℝ :=
  h.map (fun x => x - h.headI)

/-- The four head series loaded by the notebook: the pumped well and
piezometers 1, 3 and 4. -/
structure HeadData where
  wd : List ℝ
  h1d : List ℝ
  h3d : List ℝ
  h4d : List ℝ

/-- The transform cell of the notebook: `h4d=h4d-h4d[0]; h3d=h3d-h3d[0];
h1d=h1d-h1d[0]; wd=wd-wd[0]`, i.e. the drawdown transform applied to each of
the four loaded series. -/
def transformAll (d : HeadData) : HeadData :=
  ⟨drawdown d.wd, drawdown d.h1d, drawdown d.h3d, drawdown d.h4d⟩

/-- Helper: each entry of the transformed series is the head minus the first
head reading. -/
theorem drawdown_getElem (h : List ℝ) (i : ℕ) (hi : i < h.length)
    (h0 : 0 < h.length) : (drawdown h)[i]? = some (h[i] - h[0]) := by
  match h with
  | [] => exact absurd h0 (by simp)
  | a :: t =>
    simp only [drawdown, List.getElem?_map, List.headI]
    rw [List.getElem?_eq_getElem hi]
    simp [List.getElem_cons_zero]

/-- Helper: the first entry of a transformed non-empty series is zero. -/
theorem drawdown_head (h : List ℝ) (h0 : 0 < h.length) :
    (drawdown h)[0]? = some 0 := by
  rw [drawdown_getElem h 0 h0 h0]
  simp

/-- C6: for every non-empty loaded head series the drawdown transform
produces `h - h[0]` elementwise, so the first element of every transformed
series is exactly zero; this holds for all four series of the notebook
(well and piezometers 1, 3, 4). -/
theorem drawdown_transform_spec (d : HeadData)
    (hw : 0 < d.wd.length) (h1 : 0 < d.h1d.length)
    (h3 : 0 < d.h3d.length) (h4 : 0 < d.h4d.length) :
    ((transformAll d).wd[0]? = some 0 ∧ (transformAll d).h1d[0]? = some 0 ∧
      (transformAll d).h3d[0]? = some 0 ∧ (transformAll d).h4d[0]? = some 0) ∧
    ∀ h : List ℝ, ∀ i, ∀ hi : i < h.length,
      (drawdown h)[i]? = some (h[i] - h[0]) := by
  refine ⟨⟨?_, ?_, ?_, ?_⟩, ?_⟩
  · exact drawdown_head d.wd hw
  · exact drawdown_head d.h1d h1
  · exact drawdown_head d.h3d h3
  · exact drawdown_head d.h4d h4
  · intro h i hi
    exact drawdown_getElem h i hi (Nat.lt_of_le_of_lt (Nat.zero_le i) hi)

/-- Witness for C6 on the data ⟨[2], [3, 4], [5], [6]⟩. -/
theorem drawdown_transform_spec_witness :
    (0 < ([2]:List ℝ).length ∧ 0 < ([3, 4]:List ℝ).length ∧
      0 < ([5]:List ℝ).length ∧ 0 < ([6]:List ℝ).length) ∧
    (((transformAll ⟨[2], [3, 4], [5], [6]⟩).wd[0]? = some 0 ∧
      (transformAll ⟨[2], [3, 4], [5], [6]⟩).h1d[0]? = some 0 ∧
      (transformAll ⟨[2], [3, 4], [5], [6]⟩).h3d[0]? = some 0 ∧
      (transformAll ⟨[2], [3, 4], [5], [6]⟩).h4d[0]? = some 0) ∧
    ∀ h : List ℝ, ∀ i, ∀ hi : i < h.length,
      (drawdown h)[i]? = some (h[i] - h[0])) :=
  ⟨⟨by norm_num, by norm_num, by norm_num, by norm_num⟩,
   drawdown_transform_spec ⟨[2], [3, 4], [5], [6]⟩ (by norm_num) (by norm_num)
     (by norm_num) (by norm_num)⟩

/-- The radius sweep `ra=np.linspace(0,30)` of the driving script:
`np.linspace` with its default of 50 points gives entry `i` the value
`30·i/49` for `i = 0, …, 49`. -/
noncomputable def linspace0to30 : List ℝ :=
  (List.range 50).map (fun i : ℕ => 30 * (i : ℝ) / 49)

/-- The sweep after the script's `ra[0]=0.005`, which overwrites the first
entry of the linspace with a small positive radius. -/
noncomputable def raSweep : List ℝ := linspace0to30.set 0 0.005

/-- C8: the radius sweep handed to the Thiem evaluator contains no zero
radius: the 50-point linspace from 0 to 30 has 0 exactly at its first entry
(every later entry is positive), and after the script replaces that entry
with 0.005 every radius in the sweep is strictly positive, so the
`ln(r/r1)` term is defined throughout. -/
theorem raSweep_all_positive :
    raSweep.length = 50 ∧ (∀ x ∈ raSweep, 0 < x) ∧
    linspace0to30[0]? = some 0 ∧
    ∀ i, ∀ hi : i < linspace0to30.length, i ≠ 0 → 0 < linspace0to30[i] := by
  have hpos : ∀ i, ∀ hi : i < linspace0to30.length, i ≠ 0 →
      0 < linspace0to30[i] := by
    intro i hi hne
    simp only [linspace0to30, List.getElem_map, List.getElem_range]
    have h1 : 0 < i := Nat.pos_of_ne_zero hne
    have h2 : (1:ℝ) ≤ (i:ℝ) := by exact_mod_cast h1
    have h30 : (0:ℝ) < 30 * (i:ℝ) := by nlinarith
    exact div_pos h30 (by norm_num)
  refine ⟨?_, ?_, ?_, hpos⟩
  · rw [raSweep, List.length_set, linspace0to30, List.length_map,
      List.length_range]
  · intro x hx
    rw [List.mem_iff_getElem] at hx
    obtain ⟨i, hi, hx⟩ := hx
    subst hx
    have hi' : i < linspace0to30.length := by
      simpa [raSweep] using hi
    simp only [raSweep, List.getElem_set]
    split
    · norm_num
    · rename_i hne
      exact hpos i hi' (fun h => hne h.symm)
  · rw [linspace0to30, List.getElem?_map,
      List.getElem?_range (by norm_num : 0 < 50)]
    norm_num

/-- The first printed conductivity value of the notebook,
`print('... %.1e m/min'%(K/60))`: the quantity printed is `K/60`. -/
noncomputable def printedKFirst (K : ℝ) : ℝ := K / 60

/-- The second printed conductivity value of the notebook,
`print('... %.3f m/d'%(K*60*24))`: the quantity printed is `K*60*24`. -/
noncomputable def printedKSecond (K : ℝ) : ℝ := K * 60 * 24

/-- C9: the two printed hydraulic-conductivity values are the user-supplied
K scaled by the fixed factors 1/60 and 60·24 = 1440 respectively, with no
other transformation of K. -/
theorem printed_conversions_scale (K : ℝ) :
    printedKFirst K = K * (1 / 60) ∧ printedKSecond K = K * 1440 := by
  constructor
  · show K / 60 = K * (1 / 60)
    ring
  · show K * 60 * 24 = K * 1440
    ring

/-- One drawdown CSV file as read by `np.loadtxt(...,unpack=True)`: a time
column and a head column. -/
structure RawFile where
  time : List ℝ
  head : List ℝ

/-- The loading cell of the notebook, with the sequential rebinding of `t`
made explicit:
`t,h4d = loadtxt('Piez4_drawdown.csv'); t,h3d = loadtxt('Piez3_drawdown.csv');
t,h1d = loadtxt('Piez1_drawdown.csv'); t,wd = loadtxt('Well_drawdown.csv')`.
Returns the final bindings `(t, h4d, h3d, h1d, wd)`. -/
def loadPhase (piez4 piez3 piez1 well : RawFile) :
    List ℝ × List ℝ × List ℝ × List ℝ × List ℝ :=
  let t := piez4.time
  let h4d := piez4.head
  let t := piez3.time
  let h3d := piez3.head
  let t := piez1.time
  let h1d := piez1.head
  let t := well.time
  let wd := well.head
  (t, h4d, h3d, h1d, wd)

/-- C10: after the loading phase the single time vector `t` is the time
column of the last-loaded file (`Well_drawdown.csv`) only; the time columns
of the three piezometer files are discarded — replacing them by arbitrary
lists leaves the loading result unchanged, so any disagreement between the
files' time grids is silently ignored and never detected. -/
theorem loadPhase_time_from_last_file (p4 p3 p1 w : RawFile) :
    (loadPhase p4 p3 p1 w).1 = w.time ∧
    ∀ t4 t3 t1 : List ℝ,
      loadPhase ⟨t4, p4.head⟩ ⟨t3, p3.head⟩ ⟨t1, p1.head⟩ w =
        loadPhase p4 p3 p1 w :=
  ⟨rfl, fun _ _ _ => rfl⟩

end PumpingTest
